import Mathlib

/-!
# Accelerometer HAL: event translation and polling core

A shallow embedding of `libsensors/AccelSensor.cpp`:

* `AccelSensor::enable`, `AccelSensor::setDelay`, `AccelSensor::readEvents`
* the C entry points `accelPollEvents` and `accelEnable`

Conventions of the embedding.

* C `int`, `int64_t` and `ssize_t` values are `Int`. No arithmetic in the
  embedded functions can leave the machine range on the inputs the theorems
  speak about (counters move by one, the delay is only compared and copied).
* `float` is an abstract type `F`; the int-to-float conversion and the float
  product are fields of `Platform`, so nothing is assumed about rounding.
* The caller's output buffer is addressed by slot index relative to the
  pointer the caller passed; every `*data = e` is recorded as a store
  `(slot, e)`, in program order. `applyStores` replays stores on a buffer.
* The device descriptor, the clock, `open` and `poll` are environment
  oracles: scripted results that the code consumes in order.
-/

namespace AccelHal

/-! ## Constants of the kernel and C library interfaces -/

/-- Input-event type tag of a synchronization marker (`linux/input.h`). -/
def EV_SYN : Nat := 0

/-- Input-event type tag of a relative axis change (`linux/input.h`). -/
def EV_REL : Nat := 2

/-- The errno value of an invalid argument. -/
def EINVAL : Int := 22

/-- Readiness bit "there is data to read" of `poll`. -/
def POLLIN : Nat := 1

/-- The byte sent through the self-pipe, `#define WAKE_MESSAGE 'W'`. -/
def WAKE_MESSAGE : Char := 'W'

/-- The terminating NUL byte of a C string. -/
def NUL : Char := Char.ofNat 0

/-! ## Data model -/

/-- Kernel time stamp of an input event (`struct timeval`). -/
structure timeval where
  tv_sec : Int
  tv_usec : Int
deriving DecidableEq, Repr

/-- One record of the input device (`struct input_event`). -/
structure input_event where
  time : timeval
  type : Nat
  code : Nat
  value : Int
deriving DecidableEq, Repr

/-- The emitted sample (`sensors_event_t`); `x`, `y`, `z` are the
`acceleration` member of the payload union. The rest of the payload is
zeroed by the constructor and never written afterwards. -/
structure sensors_event_t (F : Type) where
  version : Int
  sensor : Int
  type : Int
  timestamp : Int
  x : F
  y : F
  z : F
deriving DecidableEq, Repr

/-- Modelled from the spec: the constants and helpers that `AccelSensor.cpp`
takes from headers that are not part of the sources (`CONVERT_A_X/Y/Z`,
`EVENT_TYPE_ACCEL_X/Y/Z`, `timevalToNano`), together with the two `float`
operations the translation uses. -/
structure Platform (F : Type) where
  toFloat : Int → F
  fmul : F → F → F
  CONVERT_A_X : F
  CONVERT_A_Y : F
  CONVERT_A_Z : F
  EVENT_TYPE_ACCEL_X : Nat
  EVENT_TYPE_ACCEL_Y : Nat
  EVENT_TYPE_ACCEL_Z : Nat
  timevalToNano : timeval → Int

/-- The three axis codes are pairwise different. -/
def Platform.DistinctCodes {F : Type} (P : Platform F) : Prop :=
  P.EVENT_TYPE_ACCEL_X ≠ P.EVENT_TYPE_ACCEL_Y ∧
  P.EVENT_TYPE_ACCEL_X ≠ P.EVENT_TYPE_ACCEL_Z ∧
  P.EVENT_TYPE_ACCEL_Y ≠ P.EVENT_TYPE_ACCEL_Z

/-- One scripted result of reading the device descriptor: the value `fill`
returns and the complete records that the read delivered. -/
structure ReadOutcome where
  n : Int
  records : List input_event
deriving DecidableEq, Repr

/-- Modelled from the spec: `InputEventCircularReader` (its source is not
part of the sources). The reader holds the records fetched by `fill` that
have not been consumed yet, oldest first. -/
structure InputEventCircularReader where
  buffered : List input_event
deriving DecidableEq, Repr

/-- Modelled from the spec: `InputEventCircularReader::fill`. One read of
the descriptor. A negative result is an error code and leaves the reader as
it was; otherwise the records read are appended. A descriptor with nothing
scripted gives the zero-byte read. Returns the result, the reader and the
rest of the descriptor script. -/
def InputEventCircularReader.fill (rd : InputEventCircularReader)
    (fd : List ReadOutcome) : Int × InputEventCircularReader × List ReadOutcome :=
  match fd with
  | [] => (0, rd, [])
  | o :: rest =>
    if o.n < 0 then (o.n, rd, rest)
    else (o.n, { buffered := rd.buffered ++ o.records }, rest)

/-- The fields of `AccelSensor` (and of its base `SensorBase`) that the
embedded member functions touch. `data_fd` is the script of the device
descriptor, `clock` the value `getTimestamp()` returns, and
`input_sysfs_path` the directory prefix built by the constructor. -/
structure AccelSensor (F : Type) where
  mEnabled : Int
  mHasPendingEvent : Bool
  mPendingEvent : sensors_event_t F
  mInputReader : InputEventCircularReader
  data_fd : List ReadOutcome
  clock : Int
  input_sysfs_path : String
deriving DecidableEq, Repr

/-- The control files: what `open` returns for a path (negative on failure)
and every `write` performed so far, as (path, bytes), oldest first. -/
structure Sysfs where
  openResult : String → Int
  writes : List (String × List Char)

/-! ## `AccelSensor::enable` and `AccelSensor::setDelay` -/

/-- Embedding of `AccelSensor::enable`: the return value, the sensor and the
control files after the call. -/
def enable {F : Type} (st : AccelSensor F) (fs : Sysfs) (_handle : Int) (en : Int) :
    Int × AccelSensor F × Sysfs :=
  let flags : Int := if en ≠ 0 then 1 else 0
  if flags ≠ st.mEnabled then
    let path := st.input_sysfs_path ++ "enable"
    let fd := fs.openResult path
    if fd ≥ 0 then
      let text : List Char := if en = 1 then ['1', NUL] else ['0', NUL]
      (0, { st with mEnabled := flags }, { fs with writes := fs.writes ++ [(path, text)] })
    else (-1, st, fs)
  else (0, st, fs)

/-- The characters `sprintf(buf, "%lld", v)` produces. -/
def sprintf_lld (v : Int) : List Char := (toString v).toList

/-- Embedding of `AccelSensor::setDelay`: the return value and the control
files after the call. The write has length `strlen(buf)+1`, so the NUL goes
out too. -/
def setDelay {F : Type} (st : AccelSensor F) (fs : Sysfs) (_handle : Int) (ns : Int) :
    Int × Sysfs :=
  let ns : Int := if ns < 10000000 then 10000000 else ns
  let path := st.input_sysfs_path ++ "poll_delay"
  let fd := fs.openResult path
  if fd ≥ 0 then
    (0, { fs with writes := fs.writes ++ [(path, sprintf_lld ns ++ [NUL])] })
  else (-1, fs)

/-! ## `AccelSensor::readEvents` -/

/-- The variables the translation loop of `readEvents` works on: the
accumulator, the output cursor, the remaining count, the emission counter
and the stores made through the cursor. -/
structure Loop (F : Type) where
  mPendingEvent : sensors_event_t F
  data : Int
  count : Int
  numEventReceived : Int
  stores : List (Int × sensors_event_t F)
deriving DecidableEq, Repr

/-- The body of the `while` loop of `readEvents` for one record (the
`mInputReader.next()` at its end is the step to the tail in `readLoop`). -/
def readStep {F : Type} (P : Platform F) (mEnabled : Int) (event : input_event)
    (l : Loop F) : Loop F :=
  if event.type = EV_REL then
    let value : F := P.toFloat event.value
    if event.code = P.EVENT_TYPE_ACCEL_X then
      { l with mPendingEvent := { l.mPendingEvent with x := P.fmul value P.CONVERT_A_X } }
    else if event.code = P.EVENT_TYPE_ACCEL_Y then
      { l with mPendingEvent := { l.mPendingEvent with y := P.fmul value P.CONVERT_A_Y } }
    else if event.code = P.EVENT_TYPE_ACCEL_Z then
      { l with mPendingEvent := { l.mPendingEvent with z := P.fmul value P.CONVERT_A_Z } }
    else l
  else if event.type = EV_SYN then
    let pe : sensors_event_t F :=
      { l.mPendingEvent with timestamp := P.timevalToNano event.time }
    if mEnabled ≠ 0 then
      { mPendingEvent := pe
        data := l.data + 1
        count := l.count - 1
        numEventReceived := l.numEventReceived + 1
        stores := l.stores ++ [(l.data, pe)] }
    else { l with mPendingEvent := pe }
  else l

/-- The loop `while (count && mInputReader.readEvent(&event)) { ...; next(); }`
run on the records the reader holds. Returns the loop variables at exit and
the records left in the reader. -/
def readLoop {F : Type} (P : Platform F) (mEnabled : Int) :
    List input_event → Loop F → Loop F × List input_event
  | [], l => (l, [])
  | event :: rest, l =>
    if l.count ≠ 0 then readLoop P mEnabled rest (readStep P mEnabled event l)
    else (l, event :: rest)

/-- The C expression `v++`: its value, and the value left in the variable. -/
def postIncrement (v : Int) : Int × Int := (v, v + 1)

/-- What a call of `readEvents` leaves behind: the return value, the sensor
and the stores made to the output buffer, in order. -/
structure ReadResult (F : Type) where
  ret : Int
  sensor : AccelSensor F
  stores : List (Int × sensors_event_t F)
deriving DecidableEq, Repr

/-- Embedding of `AccelSensor::readEvents(data, count)`; `data` is the slot
the output pointer refers to. -/
def readEvents {F : Type} (P : Platform F) (st : AccelSensor F) (data : Int) (count : Int) :
    ReadResult F :=
  if count < 1 then
    { ret := -EINVAL, sensor := st, stores := [] }
  else if st.mHasPendingEvent then
    let pe : sensors_event_t F := { st.mPendingEvent with timestamp := st.clock }
    { ret := if st.mEnabled ≠ 0 then 1 else 0
      sensor := { st with mHasPendingEvent := false, mPendingEvent := pe }
      stores := [(data, pe)] }
  else
    let filled := st.mInputReader.fill st.data_fd
    let n := filled.1
    if n < 0 then
      { ret := n
        sensor := { st with mInputReader := filled.2.1, data_fd := filled.2.2 }
        stores := [] }
    else
      let start : Loop F :=
        { mPendingEvent := st.mPendingEvent, data := data, count := count,
          numEventReceived := 0, stores := [] }
      let done := readLoop P st.mEnabled filled.2.1.buffered start
      { ret := (postIncrement done.1.numEventReceived).1
        sensor := { st with mPendingEvent := done.1.mPendingEvent,
                            mInputReader := { buffered := done.2 },
                            data_fd := filled.2.2 }
        stores := done.1.stores }

/-- Replays stores on a buffer, oldest first. -/
def applyStores {F : Type} (mem : Int → sensors_event_t F) :
    List (Int × sensors_event_t F) → Int → sensors_event_t F
  | [] => mem
  | (slot, e) :: rest => applyStores (Function.update mem slot e) rest

/-! ## The poll multiplexer: `accelPollEvents` and `accelEnable` -/

/-- One scripted result of `poll(pollFds, numFds, timeout)`: its return
value, `errno` when that is negative, and the `revents` it reports for the
device entry and for the wake entry. -/
structure PollOutcome where
  n : Int
  errno : Int
  accelRevents : Nat
  wakeRevents : Nat
deriving DecidableEq, Repr

/-- The file-scope variables of the multiplexer: `pollFds[accel].revents`,
`pollFds[wake].revents` and the bytes handed to the self-pipe that have not
been read back. -/
structure Globals where
  accelRevents : Nat
  wakeRevents : Nat
  wakePipe : List Char
deriving DecidableEq, Repr

/-- The calls `accelPollEvents` makes, with their arguments: `readEvents`
with the cursor slot, the count passed and the value returned; `poll` with
its timeout and the values `count` and `nbEvents` had at the call. -/
inductive Call where
  | readEvents (data count ret : Int)
  | poll (timeout count nbEvents : Int)
deriving DecidableEq, Repr

/-- The variables of `accelPollEvents`. -/
structure PollState (F : Type) where
  sensor : AccelSensor F
  globals : Globals
  data : Int
  count : Int
  nbEvents : Int
  n : Int
  stores : List (Int × sensors_event_t F)
deriving DecidableEq, Repr

/-- How a call of `accelPollEvents` ends: it returns a value, or it sits in
`poll` with no timeout and nothing further scripted to wake it. -/
inductive Outcome where
  | returned (v : Int)
  | blocked
deriving DecidableEq, Repr

/-- End state of `accelPollEvents` and the calls it made, in order. -/
structure PollResult (F : Type) where
  outcome : Outcome
  state : PollState F
  calls : List Call
deriving DecidableEq, Repr

/-- First half of the `do` body: if the device entry is readable or the
sensor has a pending event, call `readEvents` and account for its result. -/
def drain {F : Type} (P : Platform F) (s : PollState F) : PollState F × List Call :=
  if s.globals.accelRevents &&& POLLIN ≠ 0 ∨ s.sensor.mHasPendingEvent = true then
    let r := readEvents P s.sensor s.data s.count
    let nb := r.ret
    let g : Globals := if nb < s.count then { s.globals with accelRevents := 0 } else s.globals
    ({ sensor := r.sensor
       globals := g
       data := s.data + nb
       count := s.count - nb
       nbEvents := s.nbEvents + nb
       n := s.n
       stores := s.stores ++ r.stores },
     [Call.readEvents s.data s.count nb])
  else (s, [])

/-- The wake branch after `poll`: one byte is read off the self-pipe and the
wake entry is cleared. -/
def drainWake (g : Globals) : Globals :=
  if g.wakeRevents &&& POLLIN ≠ 0 then
    { g with wakePipe := g.wakePipe.tail, wakeRevents := 0 }
  else g

/-- The timeout expression `nbEvents ? 0 : -1`. -/
def pollTimeout (nbEvents : Int) : Int := if nbEvents ≠ 0 then 0 else -1

/-- The `do { ... } while (n && count)` loop of `accelPollEvents`, one
iteration per scripted `poll` result. With nothing scripted, a `poll` with
timeout 0 returns 0 with no readiness, and a `poll` without timeout blocks. -/
def pollLoop {F : Type} (P : Platform F) :
    List PollOutcome → PollState F → PollResult F
  | [], s =>
    let d := drain P s
    let s1 := d.1
    if s1.count ≠ 0 then
      let timeout := pollTimeout s1.nbEvents
      let calls := d.2 ++ [Call.poll timeout s1.count s1.nbEvents]
      if timeout = 0 then
        { outcome := Outcome.returned s1.nbEvents
          state := { s1 with n := 0,
                             globals := { s1.globals with accelRevents := 0, wakeRevents := 0 } }
          calls := calls }
      else { outcome := Outcome.blocked, state := s1, calls := calls }
    else { outcome := Outcome.returned s1.nbEvents, state := s1, calls := d.2 }
  | o :: rest, s =>
    let d := drain P s
    let s1 := d.1
    if s1.count ≠ 0 then
      let timeout := pollTimeout s1.nbEvents
      let calls := d.2 ++ [Call.poll timeout s1.count s1.nbEvents]
      if o.n < 0 then
        { outcome := Outcome.returned (-o.errno), state := { s1 with n := o.n }, calls := calls }
      else
        let g := drainWake { s1.globals with accelRevents := o.accelRevents,
                                             wakeRevents := o.wakeRevents }
        let s2 : PollState F := { s1 with n := o.n, globals := g }
        if s2.n ≠ 0 ∧ s2.count ≠ 0 then
          let r := pollLoop P rest s2
          { r with calls := calls ++ r.calls }
        else { outcome := Outcome.returned s2.nbEvents, state := s2, calls := calls }
    else { outcome := Outcome.returned s1.nbEvents, state := s1, calls := d.2 }

/-- Embedding of `accelPollEvents(sensorPtr, data, count)`; slot 0 is the
first slot of the caller's buffer. -/
def accelPollEvents {F : Type} (P : Platform F) (sensor : AccelSensor F) (g : Globals)
    (script : List PollOutcome) (count : Int) : PollResult F :=
  pollLoop P script
    { sensor := sensor, globals := g, data := 0, count := count, nbEvents := 0, n := 0,
      stores := [] }

/-- Embedding of `accelEnable`: the return value, the sensor, the control
files and the file-scope variables after the call. The byte handed to
`write(writePipeFd, ...)` is appended to the self-pipe. -/
def accelEnable {F : Type} (st : AccelSensor F) (fs : Sysfs) (g : Globals)
    (handle : Int) (en : Int) : Int × AccelSensor F × Sysfs × Globals :=
  let r := enable st fs handle en
  let err := r.1
  if en ≠ 0 ∧ err = 0 then
    (err, r.2.1, r.2.2, { g with wakePipe := g.wakePipe ++ [WAKE_MESSAGE] })
  else (err, r.2.1, r.2.2, g)

/-! ## A concrete platform for evaluating the definitions -/

/-- An instance of `Platform` over the integers: the product is exact, the
axis codes are `REL_X`, `REL_Y`, `REL_Z`, and a `timeval` is turned into
nanoseconds as seconds times 10^9 plus microseconds times 1000. -/
def intPlatform : Platform Int where
  toFloat := fun v => v
  fmul := fun a b => a * b
  CONVERT_A_X := 3
  CONVERT_A_Y := 5
  CONVERT_A_Z := 7
  EVENT_TYPE_ACCEL_X := 0
  EVENT_TYPE_ACCEL_Y := 1
  EVENT_TYPE_ACCEL_Z := 2
  timevalToNano := fun t => t.tv_sec * 1000000000 + t.tv_usec * 1000

/-- A sensor as the constructor leaves it, with a given activation flag and
device script. -/
def freshSensor (mEnabled : Int) (fd : List ReadOutcome) : AccelSensor Int where
  mEnabled := mEnabled
  mHasPendingEvent := false
  mPendingEvent := { version := 104, sensor := 0, type := 1, timestamp := 0, x := 0, y := 0, z := 0 }
  mInputReader := { buffered := [] }
  data_fd := fd
  clock := 0
  input_sysfs_path := "/sys/class/input/input0/device/"

/-- An axis record. -/
def relEvent (code : Nat) (value : Int) : input_event :=
  { time := { tv_sec := 0, tv_usec := 0 }, type := EV_REL, code := code, value := value }

/-- A synchronization marker stamped `sec` seconds. -/
def synEvent (sec : Int) : input_event :=
  { time := { tv_sec := sec, tv_usec := 0 }, type := EV_SYN, code := 0, value := 0 }

/-- Control files whose every `open` succeeds (descriptor 3), nothing written. -/
def sysfsOk : Sysfs := { openResult := fun _ => 3, writes := [] }

/-- Control files whose every `open` fails, nothing written. -/
def sysfsFail : Sysfs := { openResult := fun _ => -1, writes := [] }

/-- File-scope variables right after `createAccelSensor`. -/
def freshGlobals : Globals := { accelRevents := 0, wakeRevents := 0, wakePipe := [] }


/-- A run of `accelPollEvents` with room for one sample: the device entry is
readable, the first read of the descriptor fails with `-5` (`-EIO`), the
following `poll` reports the device readable again, the second read delivers
one marker, and the `poll` after that reports nothing. -/
def readFailureRun : PollResult Int :=
  accelPollEvents intPlatform (freshSensor 1 [⟨-5, []⟩, ⟨16, [synEvent 4]⟩])
    { freshGlobals with accelRevents := POLLIN }
    [⟨1, 0, POLLIN, 0⟩, ⟨0, 0, 0, 0⟩] 1

/-- A run of `accelPollEvents` with room for three samples on an enabled
sensor: nothing is readable at entry, so the first `poll` has no timeout;
it reports the device readable and a read delivers one marker; the second
`poll` reports the device readable again and a read delivers another
marker; the third `poll` reports nothing. -/
def shortRun : PollResult Int :=
  accelPollEvents intPlatform (freshSensor 1 [⟨16, [synEvent 4]⟩, ⟨16, [synEvent 5]⟩])
    freshGlobals
    [⟨1, 0, POLLIN, 0⟩, ⟨1, 0, POLLIN, 0⟩, ⟨0, 0, 0, 0⟩] 3

/-! ## Reference notions used to state the properties -/

/-- The raw value of the last record of `s` that carries `code`, if any. -/
def lastValue (code : Nat) (s : List input_event) : Option Int :=
  ((s.filter (fun e => e.code = code)).getLast?).map (fun e => e.value)

/-- The last synchronization marker of `s`, if any. -/
def lastSyn (s : List input_event) : Option input_event :=
  (s.filter (fun e => e.type = EV_SYN)).getLast?

/-- The number of synchronization markers in `s`. -/
def countSyn (s : List input_event) : Nat :=
  (s.filter (fun e => e.type = EV_SYN)).length

/-- The accumulator `old` after a run of axis records `rels`: per axis the
converted value of the last record for that axis, or the old value when the
axis does not occur; everything else as in `old`. -/
def accumulated {F : Type} (P : Platform F) (old : sensors_event_t F)
    (rels : List input_event) : sensors_event_t F :=
  { version := old.version
    sensor := old.sensor
    type := old.type
    timestamp := old.timestamp
    x := match lastValue P.EVENT_TYPE_ACCEL_X rels with
         | some v => P.fmul (P.toFloat v) P.CONVERT_A_X
         | none => old.x
    y := match lastValue P.EVENT_TYPE_ACCEL_Y rels with
         | some v => P.fmul (P.toFloat v) P.CONVERT_A_Y
         | none => old.y
    z := match lastValue P.EVENT_TYPE_ACCEL_Z rels with
         | some v => P.fmul (P.toFloat v) P.CONVERT_A_Z
         | none => old.z }

/-- The sample expected for a batch of axis records `rels` closed by the
marker `syn`, starting from the accumulator `old`: the axes as in
`accumulated`, the time stamp of the marker in nanoseconds. -/
def expectedSample {F : Type} (P : Platform F) (old : sensors_event_t F)
    (rels : List input_event) (syn : input_event) : sensors_event_t F :=
  { accumulated P old rels with timestamp := P.timevalToNano syn.time }

/-- The sum of the values returned by the `readEvents` calls of a list of
calls: the number of samples these calls reported to `accelPollEvents`. -/
def retSum : List Call → Int
  | [] => 0
  | Call.readEvents _ _ r :: rest => r + retSum rest
  | Call.poll _ _ _ :: rest => retSum rest

/-- A list of calls agrees with the variables of `accelPollEvents`: started
with cursor `data`, remaining count `count` and `nbEvents`, every
`readEvents` is passed the current cursor and count and returns between 0
and that count, after which the three variables move by the value returned;
every `poll` is made with the count non-zero, records the current count and
`nbEvents`, and has the timeout computed from the current `nbEvents`. -/
def traceOk (data count nbEvents : Int) : List Call → Prop
  | [] => True
  | Call.readEvents d k r :: rest =>
    d = data ∧ k = count ∧ 0 ≤ r ∧ r ≤ count ∧
      traceOk (data + r) (count - r) (nbEvents + r) rest
  | Call.poll t k nb :: rest =>
    k = count ∧ nb = nbEvents ∧ t = pollTimeout nbEvents ∧ count ≠ 0 ∧
      traceOk data count nbEvents rest

/-- A record the translation does not recognise: an axis record with a code
other than X, Y, Z, or a record that is neither an axis record nor a
synchronization marker. -/
def unrecognised {F : Type} (P : Platform F) (e : input_event) : Bool :=
  (e.type = EV_REL ∧ e.code ≠ P.EVENT_TYPE_ACCEL_X ∧ e.code ≠ P.EVENT_TYPE_ACCEL_Y ∧
      e.code ≠ P.EVENT_TYPE_ACCEL_Z) ∨
    (e.type ≠ EV_REL ∧ e.type ≠ EV_SYN)

/-- The records of `s` that are recognised, in order. -/
def dropUnrecognised {F : Type} (P : Platform F) (s : List input_event) : List input_event :=
  s.filter (fun e => !unrecognised P e)

/-- The sensor with every unrecognised record removed from its reader and
from everything its descriptor will deliver. -/
def AccelSensor.withoutUnrecognised {F : Type} (P : Platform F) (st : AccelSensor F) :
    AccelSensor F :=
  { st with
    mInputReader := { buffered := dropUnrecognised P st.mInputReader.buffered }
    data_fd := st.data_fd.map
      (fun o => { n := o.n, records := dropUnrecognised P o.records }) }

/-! ## The translation loop -/

theorem lastValue_nil (code : Nat) : lastValue code [] = none := rfl

theorem lastValue_cons (code : Nat) (e : input_event) (s : List input_event) :
    lastValue code (e :: s) =
      (match lastValue code s with
       | some v => some v
       | none => if e.code = code then some e.value else none) := by
  unfold lastValue
  by_cases h : e.code = code
  · rw [List.filter_cons_of_pos (by simpa using h), List.getLast?_cons]
    cases (List.filter (fun e => decide (e.code = code)) s).getLast? <;> simp [h]
  · rw [List.filter_cons_of_neg (by simpa using h)]
    cases (List.filter (fun e => decide (e.code = code)) s).getLast? <;> simp [h]

theorem lastSyn_cons (e : input_event) (s : List input_event) :
    lastSyn (e :: s) =
      (match lastSyn s with
       | some m => some m
       | none => if e.type = EV_SYN then some e else none) := by
  unfold lastSyn
  by_cases h : e.type = EV_SYN
  · rw [List.filter_cons_of_pos (by simpa using h), List.getLast?_cons]
    cases (List.filter (fun e => decide (e.type = EV_SYN)) s).getLast? <;> simp [h]
  · rw [List.filter_cons_of_neg (by simpa using h)]
    cases (List.filter (fun e => decide (e.type = EV_SYN)) s).getLast? <;> simp [h]

theorem countSyn_cons (e : input_event) (s : List input_event) :
    countSyn (e :: s) = countSyn s + (if e.type = EV_SYN then 1 else 0) := by
  unfold countSyn
  by_cases h : e.type = EV_SYN
  · rw [List.filter_cons_of_pos (by simpa using h)]
    simp [h]
  · rw [List.filter_cons_of_neg (by simpa using h)]
    simp [h]

theorem readLoop_nil {F : Type} (P : Platform F) (en : Int) (l : Loop F) :
    readLoop P en [] l = (l, []) := rfl

theorem readLoop_cons_run {F : Type} (P : Platform F) (en : Int) (e : input_event)
    (s : List input_event) (l : Loop F) (h : l.count ≠ 0) :
    readLoop P en (e :: s) l = readLoop P en s (readStep P en e l) := by
  rw [readLoop, if_pos h]

theorem readLoop_cons_stop {F : Type} (P : Platform F) (en : Int) (e : input_event)
    (s : List input_event) (l : Loop F) (h : l.count = 0) :
    readLoop P en (e :: s) l = (l, e :: s) := by
  rw [readLoop, if_neg (by simpa using h)]

theorem accumulated_nil {F : Type} (P : Platform F) (old : sensors_event_t F) :
    accumulated P old [] = old := by
  cases old
  simp [accumulated, lastValue_nil]

theorem readStep_rel_accumulated {F : Type} (P : Platform F) (hP : P.DistinctCodes)
    (en : Int) (e : input_event) (he : e.type = EV_REL) (l : Loop F)
    (rels : List input_event) :
    ({ readStep P en e l with
        mPendingEvent := accumulated P (readStep P en e l).mPendingEvent rels } : Loop F) =
      { l with mPendingEvent := accumulated P l.mPendingEvent (e :: rels) } := by
  obtain ⟨hxy, hxz, hyz⟩ := hP
  unfold readStep
  rw [if_pos he]
  simp only [accumulated, lastValue_cons]
  by_cases hx : e.code = P.EVENT_TYPE_ACCEL_X
  · have hy : ¬ e.code = P.EVENT_TYPE_ACCEL_Y := fun h => hxy (hx.symm.trans h)
    have hz : ¬ e.code = P.EVENT_TYPE_ACCEL_Z := fun h => hxz (hx.symm.trans h)
    simp only [hx, hy, hz, if_true, if_false]
    cases lastValue P.EVENT_TYPE_ACCEL_X rels <;> cases lastValue P.EVENT_TYPE_ACCEL_Y rels <;>
      cases lastValue P.EVENT_TYPE_ACCEL_Z rels <;> simp_all
  · by_cases hy : e.code = P.EVENT_TYPE_ACCEL_Y
    · have hz : ¬ e.code = P.EVENT_TYPE_ACCEL_Z := fun h => hyz (hy.symm.trans h)
      simp only [hx, hy, hz, if_true, if_false]
      cases lastValue P.EVENT_TYPE_ACCEL_X rels <;> cases lastValue P.EVENT_TYPE_ACCEL_Y rels <;>
        cases lastValue P.EVENT_TYPE_ACCEL_Z rels <;> simp_all
    · by_cases hz : e.code = P.EVENT_TYPE_ACCEL_Z
      · simp only [hx, hy, hz, if_true, if_false]
        cases lastValue P.EVENT_TYPE_ACCEL_X rels <;>
          cases lastValue P.EVENT_TYPE_ACCEL_Y rels <;>
          cases lastValue P.EVENT_TYPE_ACCEL_Z rels <;> simp_all
      · simp only [hx, hy, hz, if_true, if_false]
        cases lastValue P.EVENT_TYPE_ACCEL_X rels <;>
          cases lastValue P.EVENT_TYPE_ACCEL_Y rels <;>
          cases lastValue P.EVENT_TYPE_ACCEL_Z rels <;> simp_all

theorem readStep_rel_count {F : Type} (P : Platform F) (en : Int) (e : input_event)
    (he : e.type = EV_REL) (l : Loop F) : (readStep P en e l).count = l.count := by
  unfold readStep
  rw [if_pos he]
  dsimp only
  split_ifs <;> rfl

/-- A run of axis records leaves the loop variables alone except for the
accumulator, which ends as `accumulated` describes. -/
theorem readLoop_rels {F : Type} (P : Platform F) (hP : P.DistinctCodes) (en : Int)
    (rels : List input_event) :
    ∀ (l : Loop F) (tail : List input_event), (∀ e ∈ rels, e.type = EV_REL) → l.count ≠ 0 →
      readLoop P en (rels ++ tail) l =
        readLoop P en tail { l with mPendingEvent := accumulated P l.mPendingEvent rels } := by
  induction rels with
  | nil =>
    intro l tail _ _
    simp [accumulated_nil]
  | cons e rels ih =>
    intro l tail hall hc
    have he : e.type = EV_REL := hall e (List.mem_cons_self _ _)
    have hrest : ∀ e' ∈ rels, e'.type = EV_REL := fun e' h => hall e' (List.mem_cons_of_mem _ h)
    rw [List.cons_append, readLoop_cons_run P en e _ l hc,
      ih (readStep P en e l) tail hrest (by rw [readStep_rel_count P en e he]; exact hc),
      readStep_rel_accumulated P hP en e he l rels]

theorem readStep_disabled {F : Type} (P : Platform F) (e : input_event) (l : Loop F) :
    (readStep P 0 e l).stores = l.stores ∧
      (readStep P 0 e l).numEventReceived = l.numEventReceived ∧
      (readStep P 0 e l).count = l.count ∧
      (readStep P 0 e l).data = l.data ∧
      (readStep P 0 e l).mPendingEvent.timestamp =
        (if e.type = EV_SYN then P.timevalToNano e.time else l.mPendingEvent.timestamp) := by
  have h01 : ¬ EV_REL = EV_SYN := by decide
  unfold readStep
  by_cases hrel : e.type = EV_REL
  · have hsyn : ¬ e.type = EV_SYN := by rw [hrel]; exact h01
    rw [if_pos hrel, if_neg hsyn]
    dsimp only
    split_ifs <;> simp
  · rw [if_neg hrel]
    by_cases hsyn : e.type = EV_SYN
    · simp [hsyn]
    · simp [hsyn]

/-- With the sensor disabled the loop consumes every record and only the
time stamp of the accumulator follows the markers. -/
theorem readLoop_disabled {F : Type} (P : Platform F) (s : List input_event) :
    ∀ l : Loop F, l.count ≠ 0 →
      (readLoop P 0 s l).2 = [] ∧
        (readLoop P 0 s l).1.stores = l.stores ∧
        (readLoop P 0 s l).1.numEventReceived = l.numEventReceived ∧
        (readLoop P 0 s l).1.mPendingEvent.timestamp =
          (match lastSyn s with
           | some m => P.timevalToNano m.time
           | none => l.mPendingEvent.timestamp) := by
  induction s with
  | nil =>
    intro l _
    simp [readLoop_nil, lastSyn]
  | cons e s ih =>
    intro l hc
    obtain ⟨hst, hnum, hcnt, _, hts⟩ := readStep_disabled P e l
    obtain ⟨h1, h2, h3, h4⟩ := ih (readStep P 0 e l) (by rw [hcnt]; exact hc)
    rw [readLoop_cons_run P 0 e s l hc, lastSyn_cons]
    refine ⟨h1, h2.trans hst, h3.trans hnum, ?_⟩
    rw [h4, hts]
    cases lastSyn s <;> simp
    split_ifs <;> rfl

/-- What one step adds to the emission counter. -/
theorem readStep_counts {F : Type} (P : Platform F) (en : Int) (e : input_event) (l : Loop F) :
    (readStep P en e l).numEventReceived =
        l.numEventReceived + (if en ≠ 0 ∧ e.type = EV_SYN then 1 else 0) ∧
      (readStep P en e l).stores.length =
        l.stores.length + (if en ≠ 0 ∧ e.type = EV_SYN then 1 else 0) ∧
      (readStep P en e l).count =
        l.count - (if en ≠ 0 ∧ e.type = EV_SYN then 1 else 0) ∧
      (readStep P en e l).data =
        l.data + (if en ≠ 0 ∧ e.type = EV_SYN then 1 else 0) := by
  have h01 : ¬ EV_REL = EV_SYN := by decide
  unfold readStep
  by_cases hrel : e.type = EV_REL
  · have hsyn : ¬ (en ≠ 0 ∧ e.type = EV_SYN) := by rw [hrel]; exact fun h => h01 h.2
    rw [if_pos hrel, if_neg hsyn, if_neg hsyn]
    dsimp only
    split_ifs <;> simp
  · rw [if_neg hrel]
    by_cases hsyn : e.type = EV_SYN
    · by_cases hen : en = 0 <;> simp [hsyn, hen]
    · simp [hsyn]

/-- The loop splits the records into a consumed prefix and the rest; the
emission counter, the number of stores, the remaining count and the cursor
all move by the number of markers consumed while enabled. -/
theorem readLoop_counts {F : Type} (P : Platform F) (en : Int) (s : List input_event) :
    ∀ l : Loop F, ∃ consumed : List input_event,
      consumed ++ (readLoop P en s l).2 = s ∧
        (readLoop P en s l).1.numEventReceived =
          l.numEventReceived + (if en ≠ 0 then (countSyn consumed : Int) else 0) ∧
        ((readLoop P en s l).1.stores.length : Int) =
          l.stores.length + (if en ≠ 0 then (countSyn consumed : Int) else 0) ∧
        (readLoop P en s l).1.count =
          l.count - (if en ≠ 0 then (countSyn consumed : Int) else 0) ∧
        (readLoop P en s l).1.data =
          l.data + (if en ≠ 0 then (countSyn consumed : Int) else 0) := by
  induction s with
  | nil =>
    intro l
    exact ⟨[], by simp [readLoop_nil, countSyn]⟩
  | cons e s ih =>
    intro l
    by_cases hc : l.count = 0
    · exact ⟨[], by simp [readLoop_cons_stop P en e s l hc, countSyn]⟩
    · obtain ⟨consumed, h1, h2, h3, h4, h5⟩ := ih (readStep P en e l)
      obtain ⟨k1, k2, k3, k4⟩ := readStep_counts P en e l
      refine ⟨e :: consumed, ?_, ?_, ?_, ?_, ?_⟩
      · rw [readLoop_cons_run P en e s l hc, List.cons_append, h1]
      · rw [readLoop_cons_run P en e s l hc, h2, k1, countSyn_cons]
        by_cases hen : en = 0 <;> by_cases hsyn : e.type = EV_SYN <;> simp [hen, hsyn]
        omega
      · rw [readLoop_cons_run P en e s l hc, h3, k2, countSyn_cons]
        by_cases hen : en = 0 <;> by_cases hsyn : e.type = EV_SYN <;> simp [hen, hsyn]
        omega
      · rw [readLoop_cons_run P en e s l hc, h4, k3, countSyn_cons]
        by_cases hen : en = 0 <;> by_cases hsyn : e.type = EV_SYN <;> simp [hen, hsyn]
        omega
      · rw [readLoop_cons_run P en e s l hc, h5, k4, countSyn_cons]
        by_cases hen : en = 0 <;> by_cases hsyn : e.type = EV_SYN <;> simp [hen, hsyn]
        omega

/-- The remaining count never goes below zero. -/
theorem readLoop_count_nonneg {F : Type} (P : Platform F) (en : Int) (s : List input_event) :
    ∀ l : Loop F, 0 ≤ l.count → 0 ≤ (readLoop P en s l).1.count := by
  induction s with
  | nil =>
    intro l h
    simpa [readLoop_nil] using h
  | cons e s ih =>
    intro l h
    by_cases hc : l.count = 0
    · simpa [readLoop_cons_stop P en e s l hc] using h
    · rw [readLoop_cons_run P en e s l hc]
      apply ih
      rw [(readStep_counts P en e l).2.2.1]
      split_ifs <;> omega

/-- An unrecognised record changes none of the loop variables. -/
theorem readStep_unrecognised {F : Type} (P : Platform F) (en : Int) (e : input_event)
    (l : Loop F) (h : unrecognised P e = true) : readStep P en e l = l := by
  unfold unrecognised at h
  simp only [decide_eq_true_eq] at h
  unfold readStep
  rcases h with ⟨hrel, hx, hy, hz⟩ | ⟨hrel, hsyn⟩
  · rw [if_pos hrel]
    simp [hx, hy, hz]
  · rw [if_neg hrel, if_neg hsyn]

/-- The loop variables at exit do not depend on the unrecognised records. -/
theorem readLoop_dropUnrecognised {F : Type} (P : Platform F) (en : Int)
    (s : List input_event) :
    ∀ l : Loop F, (readLoop P en (dropUnrecognised P s) l).1 = (readLoop P en s l).1 := by
  induction s with
  | nil =>
    intro l
    rfl
  | cons e s ih =>
    intro l
    by_cases hu : unrecognised P e = true
    · have hdrop : dropUnrecognised P (e :: s) = dropUnrecognised P s := by
        unfold dropUnrecognised
        rw [List.filter_cons_of_neg (by simp [hu])]
      rw [hdrop, ih l]
      by_cases hc : l.count = 0
      · rw [readLoop_cons_stop P en e s l hc]
        cases s with
        | nil => rfl
        | cons e' s' => rw [readLoop_cons_stop P en e' s' l hc]
      · rw [readLoop_cons_run P en e s l hc, readStep_unrecognised P en e l hu]
    · have hdrop : dropUnrecognised P (e :: s) = e :: dropUnrecognised P s := by
        unfold dropUnrecognised
        rw [List.filter_cons_of_pos (by simpa using hu)]
      rw [hdrop]
      by_cases hc : l.count = 0
      · rw [readLoop_cons_stop P en e s l hc, readLoop_cons_stop P en e _ l hc]
      · rw [readLoop_cons_run P en e s l hc, readLoop_cons_run P en e _ l hc,
          ih (readStep P en e l)]

theorem dropUnrecognised_append {F : Type} (P : Platform F) (a b : List input_event) :
    dropUnrecognised P (a ++ b) = dropUnrecognised P a ++ dropUnrecognised P b := by
  unfold dropUnrecognised
  rw [List.filter_append]

/-- Filling commutes with removing the unrecognised records. -/
theorem fill_withoutUnrecognised {F : Type} (P : Platform F) (st : AccelSensor F) :
    ((st.withoutUnrecognised P).mInputReader.fill (st.withoutUnrecognised P).data_fd).1 =
        (st.mInputReader.fill st.data_fd).1 ∧
      ((st.withoutUnrecognised P).mInputReader.fill
          (st.withoutUnrecognised P).data_fd).2.1.buffered =
        dropUnrecognised P (st.mInputReader.fill st.data_fd).2.1.buffered := by
  unfold AccelSensor.withoutUnrecognised InputEventCircularReader.fill
  cases hfd : st.data_fd with
  | nil => simp
  | cons o rest =>
    by_cases hn : o.n < 0
    · simp [hn]
    · simp [hn, dropUnrecognised_append]

/-- One step either leaves stores and cursor alone or stores at the cursor
and moves it by one. -/
theorem readStep_slots {F : Type} (P : Platform F) (en : Int) (e : input_event) (l : Loop F) :
    ((readStep P en e l).stores = l.stores ∧ (readStep P en e l).data = l.data) ∨
      (∃ pe, (readStep P en e l).stores = l.stores ++ [(l.data, pe)] ∧
        (readStep P en e l).data = l.data + 1) := by
  unfold readStep
  by_cases hrel : e.type = EV_REL
  · rw [if_pos hrel]
    dsimp only
    left
    split_ifs <;> exact ⟨rfl, rfl⟩
  · rw [if_neg hrel]
    by_cases hsyn : e.type = EV_SYN
    · by_cases hen : en = 0
      · left
        simp [hsyn, hen]
      · right
        exact ⟨{ l.mPendingEvent with timestamp := P.timevalToNano e.time }, by simp [hsyn, hen]⟩
    · left
      simp [hsyn]

/-- The stores of the loop go to consecutive slots, starting at the cursor. -/
theorem readLoop_slots {F : Type} (P : Platform F) (en : Int) (s : List input_event) :
    ∀ l : Loop F, ∃ k : Nat,
      (readLoop P en s l).1.stores.map Prod.fst =
        l.stores.map Prod.fst ++ (List.range k).map (fun (i : Nat) => l.data + (i : Int)) := by
  induction s with
  | nil =>
    intro l
    exact ⟨0, by simp [readLoop_nil]⟩
  | cons e s ih =>
    intro l
    by_cases hc : l.count = 0
    · exact ⟨0, by simp [readLoop_cons_stop P en e s l hc]⟩
    · obtain ⟨k, hk⟩ := ih (readStep P en e l)
      rw [readLoop_cons_run P en e s l hc]
      rcases readStep_slots P en e l with ⟨h1, h2⟩ | ⟨pe, h1, h2⟩
      · exact ⟨k, by rw [hk, h1, h2]⟩
      · refine ⟨k + 1, ?_⟩
        rw [hk, h1, h2, List.range_succ_eq_map]
        simp only [List.map_append, List.map_cons, List.map_nil, List.append_assoc,
          List.singleton_append, List.map_map, Nat.cast_zero, add_zero,
          List.append_cancel_left_eq, List.cons.injEq, true_and]
        apply List.map_congr_left
        intro i _
        simp only [Function.comp_apply, Nat.cast_succ]
        omega

theorem readEvents_of_count_lt_one {F : Type} (P : Platform F) (st : AccelSensor F)
    (data count : Int) (h : count < 1) :
    readEvents P st data count = { ret := -EINVAL, sensor := st, stores := [] } := by
  unfold readEvents
  rw [if_pos h]

/-! ## Properties of `setDelay`, `enable` and `accelEnable` -/

/-- C5. `setDelay` writes the decimal text of `max ns 10000000` (with its
NUL) to `poll_delay` whenever the control file opens, and writes nothing
when it does not; the value is 10,000,000 for every `ns` below that
(zero and negatives included) and `ns` itself from there on. -/
theorem setDelay_clamp {F : Type} (st : AccelSensor F) (fs : Sysfs) (handle ns : Int) :
    setDelay st fs handle ns =
        (if 0 ≤ fs.openResult (st.input_sysfs_path ++ "poll_delay") then
          (0, { fs with writes := fs.writes ++
                  [(st.input_sysfs_path ++ "poll_delay",
                    sprintf_lld (max ns 10000000) ++ [NUL])] })
         else (-1, fs)) ∧
      max ns 10000000 = (if ns < 10000000 then 10000000 else ns) := by
  have hmax : max ns 10000000 = (if ns < 10000000 then 10000000 else ns) := by
    split
    · exact max_eq_right (by omega)
    · exact max_eq_left (by omega)
  refine ⟨?_, hmax⟩
  unfold setDelay
  rw [hmax]

/-- C6. With `count < 1`, `readEvents` returns `-EINVAL`, stores nothing and
leaves the sensor (flags, accumulator, reader, descriptor) as it was. -/
theorem readEvents_bad_count {F : Type} (P : Platform F) (st : AccelSensor F)
    (data count : Int) (h : count < 1) :
    readEvents P st data count = { ret := -EINVAL, sensor := st, stores := [] } := by
  unfold readEvents
  rw [if_pos h]

/-- Witness of C6 at `count = 0`, on a sensor with a record waiting. -/
theorem readEvents_bad_count_witness :
    (0 : Int) < 1 ∧
      readEvents intPlatform (freshSensor 1 [⟨16, [synEvent 4]⟩]) 0 0 =
        { ret := -EINVAL, sensor := freshSensor 1 [⟨16, [synEvent 4]⟩], stores := [] } :=
  ⟨by decide, readEvents_bad_count intPlatform (freshSensor 1 [⟨16, [synEvent 4]⟩]) 0 0 (by decide)⟩

/-- C7, as stated, fails: on a sensor that is already enabled, a request
with `en = 1` changes nothing in `mEnabled` and still puts a wake byte into
the self-pipe. -/
theorem accelEnable_wakes_when_already_enabled :
    (freshSensor 1 []).mEnabled = 1 ∧
      (accelEnable (freshSensor 1 []) sysfsOk freshGlobals 0 1).2.1.mEnabled = 1 ∧
      sysfsOk.writes = (accelEnable (freshSensor 1 []) sysfsOk freshGlobals 0 1).2.2.1.writes ∧
      (accelEnable (freshSensor 1 []) sysfsOk freshGlobals 0 1).2.2.2.wakePipe =
        [WAKE_MESSAGE] ∧
      freshGlobals.wakePipe = [] := by
  decide

/-- C7, amended. `accelEnable` appends exactly one wake byte when `en` is
non-zero and `AccelSensor::enable` reported success, that is when the flag
already had the requested value or the control file opened; otherwise the
self-pipe is untouched. The readiness words are never touched. -/
theorem accelEnable_wake_rule {F : Type} (st : AccelSensor F) (fs : Sysfs) (g : Globals)
    (handle en : Int) :
    (accelEnable st fs g handle en).2.2.2 =
      (if en ≠ 0 ∧ (st.mEnabled = 1 ∨ 0 ≤ fs.openResult (st.input_sysfs_path ++ "enable")) then
        { g with wakePipe := g.wakePipe ++ [WAKE_MESSAGE] }
       else g) := by
  unfold accelEnable enable
  by_cases hen : en = 0
  · subst hen
    by_cases h0 : (0 : Int) = st.mEnabled
    · simp [← h0]
    · by_cases hfd : 0 ≤ fs.openResult (st.input_sysfs_path ++ "enable") <;> simp [h0, hfd]
  · by_cases h1 : (1 : Int) = st.mEnabled
    · simp [hen, ← h1]
    · have h1' : ¬ st.mEnabled = 1 := fun h => h1 h.symm
      by_cases hfd : 0 ≤ fs.openResult (st.input_sysfs_path ++ "enable") <;>
        simp [hen, h1, h1', hfd]

/-- C10 fails at `en = 2`: on a disabled sensor whose control file opens,
`enable` sets `mEnabled` to 1 and writes the text "0" to the driver. -/
theorem enable_two_writes_zero :
    (enable (freshSensor 0 []) sysfsOk 0 2).1 = 0 ∧
      (enable (freshSensor 0 []) sysfsOk 0 2).2.1.mEnabled = 1 ∧
      (enable (freshSensor 0 []) sysfsOk 0 2).2.2.writes =
        [((freshSensor 0 []).input_sysfs_path ++ "enable", ['0', NUL])] := by
  decide

/-! ## Properties of `readEvents` -/

/-- With the count positive, no pending event and a fill that did not fail,
`readEvents` is the translation loop run on what the reader holds. -/
theorem readEvents_eq_loop {F : Type} (P : Platform F) (st : AccelSensor F)
    (data count : Int) (hcount : 1 ≤ count) (hpend : st.mHasPendingEvent = false)
    (hfill : 0 ≤ (st.mInputReader.fill st.data_fd).1) :
    readEvents P st data count =
      { ret := (readLoop P st.mEnabled (st.mInputReader.fill st.data_fd).2.1.buffered
                  { mPendingEvent := st.mPendingEvent, data := data, count := count,
                    numEventReceived := 0, stores := [] }).1.numEventReceived
        sensor :=
          { st with
            mPendingEvent :=
              (readLoop P st.mEnabled (st.mInputReader.fill st.data_fd).2.1.buffered
                { mPendingEvent := st.mPendingEvent, data := data, count := count,
                  numEventReceived := 0, stores := [] }).1.mPendingEvent
            mInputReader :=
              { buffered :=
                  (readLoop P st.mEnabled (st.mInputReader.fill st.data_fd).2.1.buffered
                    { mPendingEvent := st.mPendingEvent, data := data, count := count,
                      numEventReceived := 0, stores := [] }).2 }
            data_fd := (st.mInputReader.fill st.data_fd).2.2 }
        stores :=
          (readLoop P st.mEnabled (st.mInputReader.fill st.data_fd).2.1.buffered
            { mPendingEvent := st.mPendingEvent, data := data, count := count,
              numEventReceived := 0, stores := [] }).1.stores } := by
  unfold readEvents
  rw [if_neg (by omega), hpend]
  simp only [Bool.false_eq_true, if_false]
  rw [if_neg (by omega)]
  rfl

theorem readEvents_loop_ret_le {F : Type} (P : Platform F) (st : AccelSensor F)
    (data count : Int) (hpend : st.mHasPendingEvent = false) (hcount : 1 ≤ count)
    (hfill : 0 ≤ (st.mInputReader.fill st.data_fd).1) :
    (readEvents P st data count).ret ≤ count := by
  obtain ⟨consumed, _, h2, _, h4, _⟩ :=
    readLoop_counts P st.mEnabled (st.mInputReader.fill st.data_fd).2.1.buffered
      { mPendingEvent := st.mPendingEvent, data := data, count := count,
        numEventReceived := 0, stores := [] }
  have hnn := readLoop_count_nonneg P st.mEnabled (st.mInputReader.fill st.data_fd).2.1.buffered
      { mPendingEvent := st.mPendingEvent, data := data, count := count,
        numEventReceived := 0, stores := [] } (by show 0 ≤ count; omega)
  rw [readEvents_eq_loop P st data count hcount hpend hfill]
  show (readLoop P st.mEnabled _ _).1.numEventReceived ≤ count
  simp only [zero_add] at h2
  rw [h2]
  rw [h4] at hnn
  exact sub_nonneg.mp hnn

/-- C1. Enabled sensor, no pending event, `count ≥ 1`, a fill that did not
fail and left the reader holding axis records `rels` followed by the one
marker `syn`: `readEvents` returns 1 and makes exactly one store, at the
cursor; the stored sample has, per axis, the converted value of the last
record for that axis, or the value the accumulator had before the call if
the axis does not occur, and the marker's time in nanoseconds. The
accumulator ends equal to that sample and the reader ends empty. -/
theorem readEvents_single_marker {F : Type} (P : Platform F) (hP : P.DistinctCodes)
    (st : AccelSensor F) (data count : Int) (rels : List input_event) (syn : input_event)
    (hen : st.mEnabled ≠ 0) (hpend : st.mHasPendingEvent = false) (hcount : 1 ≤ count)
    (hfill : 0 ≤ (st.mInputReader.fill st.data_fd).1)
    (hseq : (st.mInputReader.fill st.data_fd).2.1.buffered = rels ++ [syn])
    (hrels : ∀ e ∈ rels, e.type = EV_REL ∧
      (e.code = P.EVENT_TYPE_ACCEL_X ∨ e.code = P.EVENT_TYPE_ACCEL_Y ∨
        e.code = P.EVENT_TYPE_ACCEL_Z))
    (hsyn : syn.type = EV_SYN) :
    (readEvents P st data count).ret = 1 ∧
      (readEvents P st data count).stores =
        [(data, expectedSample P st.mPendingEvent rels syn)] ∧
      (readEvents P st data count).sensor.mPendingEvent =
        expectedSample P st.mPendingEvent rels syn ∧
      (readEvents P st data count).sensor.mInputReader.buffered = [] := by
  have hloop :
      readLoop P st.mEnabled (rels ++ [syn])
          { mPendingEvent := st.mPendingEvent, data := data, count := count,
            numEventReceived := 0, stores := [] } =
        ({ mPendingEvent := expectedSample P st.mPendingEvent rels syn
           data := data + 1
           count := count - 1
           numEventReceived := 1
           stores := [(data, expectedSample P st.mPendingEvent rels syn)] }, []) := by
    rw [readLoop_rels P hP st.mEnabled rels _ [syn] (fun e h => (hrels e h).1)
        (by show count ≠ 0; omega),
      readLoop_cons_run P st.mEnabled syn [] _ (by show count ≠ 0; omega), readLoop_nil]
    have h01 : ¬ EV_SYN = EV_REL := by decide
    simp [readStep, hsyn, h01, hen, expectedSample]
  rw [readEvents_eq_loop P st data count hcount hpend hfill, hseq, hloop]
  simp

/-- Witness of C1: X is written twice and Y once before the marker; Z keeps
its old value. -/
theorem readEvents_single_marker_witness :
    (readEvents intPlatform
        (freshSensor 1 [⟨64, [relEvent 0 5, relEvent 1 6, relEvent 0 9, synEvent 4]⟩]) 0 3).ret = 1 ∧
      (readEvents intPlatform
        (freshSensor 1 [⟨64, [relEvent 0 5, relEvent 1 6, relEvent 0 9, synEvent 4]⟩]) 0 3).stores =
        [(0, expectedSample intPlatform
          (freshSensor 1 [⟨64, [relEvent 0 5, relEvent 1 6, relEvent 0 9, synEvent 4]⟩]).mPendingEvent
          [relEvent 0 5, relEvent 1 6, relEvent 0 9] (synEvent 4))] ∧
      (readEvents intPlatform
        (freshSensor 1 [⟨64, [relEvent 0 5, relEvent 1 6, relEvent 0 9, synEvent 4]⟩]) 0 3).sensor.mPendingEvent =
        expectedSample intPlatform
          (freshSensor 1 [⟨64, [relEvent 0 5, relEvent 1 6, relEvent 0 9, synEvent 4]⟩]).mPendingEvent
          [relEvent 0 5, relEvent 1 6, relEvent 0 9] (synEvent 4) ∧
      (readEvents intPlatform
        (freshSensor 1 [⟨64, [relEvent 0 5, relEvent 1 6, relEvent 0 9, synEvent 4]⟩]) 0 3).sensor.mInputReader.buffered = [] :=
  readEvents_single_marker intPlatform ⟨by decide, by decide, by decide⟩
    (freshSensor 1 [⟨64, [relEvent 0 5, relEvent 1 6, relEvent 0 9, synEvent 4]⟩]) 0 3
    [relEvent 0 5, relEvent 1 6, relEvent 0 9] (synEvent 4)
    (by decide) (by decide) (by decide) (by decide) (by decide) (by decide) (by decide)

/-- C2. Disabled sensor, no pending event, `count ≥ 1` and a fill that did
not fail: whatever records the reader holds, `readEvents` returns 0, makes
no store (so every slot of any buffer is as before), consumes every record,
and leaves in the accumulator the time of the last marker among them, in
nanoseconds (the old time stamp if there was no marker). -/
theorem readEvents_disabled {F : Type} (P : Platform F) (st : AccelSensor F)
    (data count : Int) (hen : st.mEnabled = 0) (hpend : st.mHasPendingEvent = false)
    (hcount : 1 ≤ count) (hfill : 0 ≤ (st.mInputReader.fill st.data_fd).1) :
    (readEvents P st data count).ret = 0 ∧
      (readEvents P st data count).stores = [] ∧
      (∀ (mem : Int → sensors_event_t F) (slot : Int),
        applyStores mem (readEvents P st data count).stores slot = mem slot) ∧
      (readEvents P st data count).sensor.mPendingEvent.timestamp =
        (match lastSyn (st.mInputReader.fill st.data_fd).2.1.buffered with
         | some m => P.timevalToNano m.time
         | none => st.mPendingEvent.timestamp) ∧
      (readEvents P st data count).sensor.mInputReader.buffered = [] := by
  obtain ⟨h1, h2, h3, h4⟩ :=
    readLoop_disabled P (st.mInputReader.fill st.data_fd).2.1.buffered
      { mPendingEvent := st.mPendingEvent, data := data, count := count,
        numEventReceived := 0, stores := [] } (by show count ≠ 0; omega)
  rw [readEvents_eq_loop P st data count hcount hpend hfill, hen]
  refine ⟨h3, h2, ?_, h4, h1⟩
  intro mem slot
  show applyStores mem (readLoop P 0 _ _).1.stores slot = mem slot
  rw [h2]
  rfl

/-- Witness of C2: two markers with an axis record and an unknown record in
between; the time stamp ends at the second marker. -/
theorem readEvents_disabled_witness :
    (readEvents intPlatform
        (freshSensor 0 [⟨64, [synEvent 4, relEvent 0 5, ⟨⟨0, 0⟩, 3, 0, 1⟩, synEvent 6]⟩]) 0 2).ret = 0 ∧
      (readEvents intPlatform
        (freshSensor 0 [⟨64, [synEvent 4, relEvent 0 5, ⟨⟨0, 0⟩, 3, 0, 1⟩, synEvent 6]⟩]) 0 2).sensor.mPendingEvent.timestamp
        = 6000000000 := by
  have h := readEvents_disabled intPlatform
    (freshSensor 0 [⟨64, [synEvent 4, relEvent 0 5, ⟨⟨0, 0⟩, 3, 0, 1⟩, synEvent 6]⟩]) 0 2
    (by decide) (by decide) (by decide) (by decide)
  exact ⟨h.1, h.2.2.2.1.trans (by decide)⟩

/-- C3. Removing the unrecognised records (axis records with a code other
than X, Y, Z and records that are neither axis records nor markers) from
what the reader holds and from what the descriptor delivers changes nothing
in what `readEvents` returns, in the stores it makes, or in the accumulator
and flags it leaves, for every sensor state and every count. On the loop
itself: all loop variables at exit (accumulator, cursor, count, counter,
stores) agree with and without those records. -/
theorem readEvents_skips_unrecognised {F : Type} (P : Platform F) (st : AccelSensor F)
    (data count : Int) (s : List input_event) (l : Loop F) :
    (readEvents P (st.withoutUnrecognised P) data count).ret =
        (readEvents P st data count).ret ∧
      (readEvents P (st.withoutUnrecognised P) data count).stores =
        (readEvents P st data count).stores ∧
      (readEvents P (st.withoutUnrecognised P) data count).sensor.mPendingEvent =
        (readEvents P st data count).sensor.mPendingEvent ∧
      (readEvents P (st.withoutUnrecognised P) data count).sensor.mEnabled =
        (readEvents P st data count).sensor.mEnabled ∧
      (readEvents P (st.withoutUnrecognised P) data count).sensor.mHasPendingEvent =
        (readEvents P st data count).sensor.mHasPendingEvent ∧
      (readLoop P st.mEnabled (dropUnrecognised P s) l).1 = (readLoop P st.mEnabled s l).1 := by
  refine ⟨?_, ?_, ?_, ?_, ?_, readLoop_dropUnrecognised P st.mEnabled s l⟩ <;>
  · by_cases hcount : count < 1
    · rw [readEvents_of_count_lt_one P _ data count hcount,
        readEvents_of_count_lt_one P st data count hcount]
      try rfl
    · by_cases hpend : st.mHasPendingEvent = true
      · unfold readEvents
        rw [if_neg hcount, if_neg hcount]
        have hp' : (st.withoutUnrecognised P).mHasPendingEvent = true := hpend
        rw [if_pos hpend, if_pos hp']
        try rfl
      · have hp : st.mHasPendingEvent = false := by simpa using hpend
        have hp' : (st.withoutUnrecognised P).mHasPendingEvent = false := hp
        obtain ⟨hn, hb⟩ := fill_withoutUnrecognised P st
        by_cases hfill : (st.mInputReader.fill st.data_fd).1 < 0
        · unfold readEvents
          rw [if_neg hcount, if_neg hcount, hp, hp']
          simp only [Bool.false_eq_true, if_false]
          simp only [hn, hfill, if_true]
          try rfl
        · rw [readEvents_eq_loop P st data count (by omega) hp (by omega),
            readEvents_eq_loop P _ data count (by omega) hp' (by omega), hb]
          show _ = _
          first
            | exact congrArg Loop.numEventReceived (readLoop_dropUnrecognised P st.mEnabled _ _)
            | exact congrArg Loop.stores (readLoop_dropUnrecognised P st.mEnabled _ _)
            | exact congrArg Loop.mPendingEvent (readLoop_dropUnrecognised P st.mEnabled _ _)
            | rfl

/-- C4. No pending event, `count ≥ 1` and a fill that did not fail: the
value `readEvents` returns (the value of `numEventReceived++`, which is the
counter before the increment) is the number of stores it made; these went
to the consecutive slots from the cursor on; that number is the number of
markers among the records it consumed if the sensor is enabled, and zero if
not; it is never one less than the number of stores. -/
theorem readEvents_returns_store_count {F : Type} (P : Platform F) (st : AccelSensor F)
    (data count : Int) (hpend : st.mHasPendingEvent = false) (hcount : 1 ≤ count)
    (hfill : 0 ≤ (st.mInputReader.fill st.data_fd).1) :
    (readEvents P st data count).ret = ((readEvents P st data count).stores.length : Int) ∧
      (readEvents P st data count).ret ≠
        ((readEvents P st data count).stores.length : Int) - 1 ∧
      (readEvents P st data count).stores.map Prod.fst =
        (List.range (readEvents P st data count).stores.length).map
          (fun (i : Nat) => data + (i : Int)) ∧
      (readEvents P st data count).ret ≤ count ∧
      ∃ consumed : List input_event,
        consumed ++ (readEvents P st data count).sensor.mInputReader.buffered =
            (st.mInputReader.fill st.data_fd).2.1.buffered ∧
          (readEvents P st data count).ret =
            (if st.mEnabled ≠ 0 then (countSyn consumed : Int) else 0) := by
  obtain ⟨consumed, h1, h2, h3, h4, _⟩ :=
    readLoop_counts P st.mEnabled (st.mInputReader.fill st.data_fd).2.1.buffered
      { mPendingEvent := st.mPendingEvent, data := data, count := count,
        numEventReceived := 0, stores := [] }
  obtain ⟨k, hk⟩ :=
    readLoop_slots P st.mEnabled (st.mInputReader.fill st.data_fd).2.1.buffered
      { mPendingEvent := st.mPendingEvent, data := data, count := count,
        numEventReceived := 0, stores := [] }
  have hnn := readLoop_count_nonneg P st.mEnabled (st.mInputReader.fill st.data_fd).2.1.buffered
      { mPendingEvent := st.mPendingEvent, data := data, count := count,
        numEventReceived := 0, stores := [] } (by show 0 ≤ count; omega)
  rw [readEvents_eq_loop P st data count hcount hpend hfill]
  simp only [List.length_nil, Nat.cast_zero, zero_add, List.map_nil, List.nil_append] at h2 h3 h4 hk
  have hlen : k = (readLoop P st.mEnabled (st.mInputReader.fill st.data_fd).2.1.buffered
      { mPendingEvent := st.mPendingEvent, data := data, count := count,
        numEventReceived := 0, stores := [] }).1.stores.length := by
    have := congrArg List.length hk
    simpa using this.symm
  have hle : (readLoop P st.mEnabled (st.mInputReader.fill st.data_fd).2.1.buffered
      { mPendingEvent := st.mPendingEvent, data := data, count := count,
        numEventReceived := 0, stores := [] }).1.numEventReceived ≤ count := by
    rw [h2]
    rw [h4] at hnn
    exact sub_nonneg.mp hnn
  refine ⟨by rw [h2, h3], by rw [h2, h3]; exact (sub_one_lt _).ne', ?_, hle, consumed, h1, h2⟩
  show List.map Prod.fst (readLoop P st.mEnabled _ _).1.stores = _
  rw [hk, hlen]

/-- Witness of C4: room for two samples and three markers waiting; two
stores are made, two is returned, and the third marker stays in the reader. -/
theorem readEvents_returns_store_count_witness :
    (readEvents intPlatform
        (freshSensor 1 [⟨48, [synEvent 4, synEvent 5, synEvent 6]⟩]) 0 2).ret = 2 ∧
      (readEvents intPlatform
        (freshSensor 1 [⟨48, [synEvent 4, synEvent 5, synEvent 6]⟩]) 0 2).stores.length = 2 := by
  have h := readEvents_returns_store_count intPlatform
    (freshSensor 1 [⟨48, [synEvent 4, synEvent 5, synEvent 6]⟩]) 0 2
    (by decide) (by decide) (by decide)
  have hlen : (readEvents intPlatform
      (freshSensor 1 [⟨48, [synEvent 4, synEvent 5, synEvent 6]⟩]) 0 2).stores.length = 2 := by
    decide
  exact ⟨by rw [h.1, hlen]; rfl, hlen⟩

/-! ## Properties of `accelPollEvents` -/

/-- For a count of at least one, `readEvents` never returns more than the count. -/
theorem readEvents_ret_le {F : Type} (P : Platform F) (st : AccelSensor F)
    (data count : Int) (hcount : 1 ≤ count) : (readEvents P st data count).ret ≤ count := by
  by_cases hpend : st.mHasPendingEvent = true
  · unfold readEvents
    rw [if_neg (by omega), if_pos hpend]
    dsimp only
    split_ifs <;> omega
  · have hp : st.mHasPendingEvent = false := by simpa using hpend
    by_cases hfill : (st.mInputReader.fill st.data_fd).1 < 0
    · unfold readEvents
      rw [if_neg (by omega), hp]
      simp only [Bool.false_eq_true, if_false, hfill, if_true]
      omega
    · exact (readEvents_loop_ret_le P st data count hp hcount (by omega))

/-- What `drain` does to the cursor, the count and `nbEvents`, and the call
it makes. -/
theorem drain_cases {F : Type} (P : Platform F) (s : PollState F) (hcount : 1 ≤ s.count) :
    (drain P s = (s, [])) ∨
      (∃ r : Int, r ≤ s.count ∧ (drain P s).2 = [Call.readEvents s.data s.count r] ∧
        (drain P s).1.count = s.count - r ∧ (drain P s).1.nbEvents = s.nbEvents + r ∧
        (drain P s).1.data = s.data + r) := by
  unfold drain
  by_cases h : s.globals.accelRevents &&& POLLIN ≠ 0 ∨ s.sensor.mHasPendingEvent = true
  · right
    rw [if_pos h]
    exact ⟨(readEvents P s.sensor s.data s.count).ret,
      readEvents_ret_le P s.sensor s.data s.count hcount, rfl, rfl, rfl, rfl⟩
  · left
    rw [if_neg h]

/-- The calls of `drain`, put in front of calls that agree with the
variables `drain` leaves, agree with the variables `drain` started from;
and `drain` leaves the count non-negative. -/
theorem drain_traceOk {F : Type} (P : Platform F) (s : PollState F) (hcount : 1 ≤ s.count)
    (hret : ∀ d k r, Call.readEvents d k r ∈ (drain P s).2 → 0 ≤ r) :
    0 ≤ (drain P s).1.count ∧
      ∀ tail : List Call,
        traceOk (drain P s).1.data (drain P s).1.count (drain P s).1.nbEvents tail →
          traceOk s.data s.count s.nbEvents ((drain P s).2 ++ tail) := by
  rcases drain_cases P s hcount with hd | ⟨r, hr, hd, hdc, hdn, hdd⟩
  · rw [hd]
    exact ⟨by show 0 ≤ s.count; omega, fun tail h => h⟩
  · have hr0 : 0 ≤ r := hret s.data s.count r (by rw [hd]; simp)
    refine ⟨by rw [hdc]; omega, fun tail h => ?_⟩
    rw [hd, hdc, hdn, hdd] at *
    exact ⟨rfl, rfl, hr0, hr, h⟩

/-- The calls of the last iteration the script allows: those of `drain`,
then one `poll` if the count is not used up. -/
theorem pollLoop_calls_nil {F : Type} (P : Platform F) (s : PollState F) :
    ((drain P s).1.count = 0 ∧ (pollLoop P [] s).calls = (drain P s).2) ∨
      ((drain P s).1.count ≠ 0 ∧
        (pollLoop P [] s).calls =
          (drain P s).2 ++
            [Call.poll (pollTimeout (drain P s).1.nbEvents) (drain P s).1.count
              (drain P s).1.nbEvents]) := by
  by_cases hc : (drain P s).1.count = 0
  · left
    exact ⟨hc, by simp [pollLoop, hc]⟩
  · right
    refine ⟨hc, ?_⟩
    by_cases ht : pollTimeout (drain P s).1.nbEvents = 0 <;> simp [pollLoop, hc, ht]

/-- The calls of one iteration with a scripted `poll` result: those of
`drain`, then one `poll` if the count is not used up, then the calls of the
next iteration if there is one; the next iteration starts with the cursor,
the count and `nbEvents` that `drain` left. -/
theorem pollLoop_calls_cons {F : Type} (P : Platform F) (o : PollOutcome)
    (rest : List PollOutcome) (s : PollState F) :
    ((drain P s).1.count = 0 ∧ (pollLoop P (o :: rest) s).calls = (drain P s).2) ∨
      ((drain P s).1.count ≠ 0 ∧
        ((pollLoop P (o :: rest) s).calls =
            (drain P s).2 ++
              [Call.poll (pollTimeout (drain P s).1.nbEvents) (drain P s).1.count
                (drain P s).1.nbEvents] ∨
          ∃ s2 : PollState F,
            s2.count = (drain P s).1.count ∧ s2.nbEvents = (drain P s).1.nbEvents ∧
              s2.data = (drain P s).1.data ∧
              (pollLoop P (o :: rest) s).calls =
                (drain P s).2 ++
                  [Call.poll (pollTimeout (drain P s).1.nbEvents) (drain P s).1.count
                    (drain P s).1.nbEvents] ++ (pollLoop P rest s2).calls)) := by
  by_cases hc : (drain P s).1.count = 0
  · left
    exact ⟨hc, by simp [pollLoop, hc]⟩
  · right
    refine ⟨hc, ?_⟩
    by_cases hn : o.n < 0
    · left
      simp [pollLoop, hc, hn]
    · by_cases hn0 : o.n = 0
      · left
        simp [pollLoop, hc, hn, hn0]
      · right
        refine ⟨{ (drain P s).1 with
                  n := o.n
                  globals := drainWake { (drain P s).1.globals with
                    accelRevents := o.accelRevents, wakeRevents := o.wakeRevents } },
          rfl, rfl, rfl, ?_⟩
        simp [pollLoop, hc, hn, hn0]

/-- The calls of the loop agree with its variables, as long as `readEvents`
returns no negative value. -/
theorem pollLoop_traceOk {F : Type} (P : Platform F) (script : List PollOutcome) :
    ∀ s : PollState F, 1 ≤ s.count →
      (∀ d k r, Call.readEvents d k r ∈ (pollLoop P script s).calls → 0 ≤ r) →
      traceOk s.data s.count s.nbEvents (pollLoop P script s).calls := by
  induction script with
  | nil =>
    intro s hcount hret
    rcases pollLoop_calls_nil P s with ⟨_, hcalls⟩ | ⟨hne, hcalls⟩
    · rw [hcalls] at hret ⊢
      have h := (drain_traceOk P s hcount hret).2 [] trivial
      rwa [List.append_nil] at h
    · rw [hcalls] at hret ⊢
      exact (drain_traceOk P s hcount
        (fun d k r h => hret d k r (List.mem_append_left _ h))).2 _
        ⟨rfl, rfl, rfl, hne, trivial⟩
  | cons o rest ih =>
    intro s hcount hret
    rcases pollLoop_calls_cons P o rest s with
      ⟨_, hcalls⟩ | ⟨hne, hcalls | ⟨s2, hs2c, hs2n, hs2d, hcalls⟩⟩
    · rw [hcalls] at hret ⊢
      have h := (drain_traceOk P s hcount hret).2 [] trivial
      rwa [List.append_nil] at h
    · rw [hcalls] at hret ⊢
      exact (drain_traceOk P s hcount
        (fun d k r h => hret d k r (List.mem_append_left _ h))).2 _
        ⟨rfl, rfl, rfl, hne, trivial⟩
    · rw [hcalls, List.append_assoc] at hret ⊢
      obtain ⟨hnn, hfront⟩ := drain_traceOk P s hcount
        (fun d k r h => hret d k r (List.mem_append_left _ h))
      have hrec := ih s2 (by rw [hs2c]; omega)
        (fun d k r h => hret d k r
          (List.mem_append_right _ (List.mem_append_right _ h)))
      rw [hs2c, hs2n, hs2d] at hrec
      exact hfront _ ⟨rfl, rfl, rfl, hne, hrec⟩

/-- In calls that agree with the variables, a `poll` that comes after the
calls `pre` records `nbEvents` and the count moved by the sum of what the
`readEvents` calls in `pre` returned, and is made with the timeout that sum
dictates. -/
theorem traceOk_poll (pre : List Call) :
    ∀ (data count nbEvents t k nb : Int) (post : List Call),
      traceOk data count nbEvents (pre ++ Call.poll t k nb :: post) →
        0 ≤ count → 0 ≤ nbEvents →
        nb = nbEvents + retSum pre ∧ k = count - retSum pre ∧ 0 < k ∧ 0 ≤ retSum pre ∧
          t = pollTimeout nb := by
  induction pre with
  | nil =>
    intro data count nbEvents t k nb post h hc _
    obtain ⟨h1, h2, h3, h4, _⟩ := h
    subst h1 h2
    exact ⟨by simp [retSum], by simp [retSum], by omega, by simp [retSum], h3⟩
  | cons c pre ih =>
    intro data count nbEvents t k nb post h hc hn
    cases c with
    | readEvents d c r =>
      obtain ⟨_, _, hr0, hrc, hrest⟩ := h
      obtain ⟨g1, g2, g3, g4, g5⟩ :=
        ih (data + r) (count - r) (nbEvents + r) t k nb post hrest (by omega) (by omega)
      refine ⟨?_, ?_, g3, ?_, g5⟩
      · rw [g1]
        simp only [retSum]
        omega
      · rw [g2]
        simp only [retSum]
        omega
      · simp only [retSum]
        omega
    | poll t2 k2 nb2 =>
      obtain ⟨_, _, _, _, hrest⟩ := h
      obtain ⟨g1, g2, g3, g4, g5⟩ := ih data count nbEvents t k nb post hrest hc hn
      exact ⟨by simpa [retSum] using g1, by simpa [retSum] using g2, g3,
        by simpa [retSum] using g4, g5⟩

/-- In calls that agree with the variables, a `readEvents` that comes after
the calls `pre` is passed the cursor and the count moved by the sum of what
the `readEvents` calls in `pre` returned. -/
theorem traceOk_readEvents (pre : List Call) :
    ∀ (data count nbEvents d c r : Int) (post : List Call),
      traceOk data count nbEvents (pre ++ Call.readEvents d c r :: post) →
        d = data + retSum pre ∧ c = count - retSum pre ∧ r ≤ c := by
  induction pre with
  | nil =>
    intro data count nbEvents d c r post h
    obtain ⟨h1, h2, _, h4, _⟩ := h
    subst h1 h2
    exact ⟨by simp [retSum], by simp [retSum], h4⟩
  | cons c0 pre ih =>
    intro data count nbEvents d c r post h
    cases c0 with
    | readEvents d0 k0 r0 =>
      obtain ⟨_, _, _, _, hrest⟩ := h
      obtain ⟨g1, g2, g3⟩ := ih (data + r0) (count - r0) (nbEvents + r0) d c r post hrest
      refine ⟨?_, ?_, g3⟩
      · rw [g1]
        simp only [retSum]
        omega
      · rw [g2]
        simp only [retSum]
        omega
    | poll t2 k2 nb2 =>
      obtain ⟨_, _, _, _, hrest⟩ := h
      obtain ⟨g1, g2, g3⟩ := ih data count nbEvents d c r post hrest
      exact ⟨by simpa [retSum] using g1, by simpa [retSum] using g2, g3⟩

/-- If no `readEvents` call in a list returned a negative value and the
values returned add up to zero, every one of them returned zero. -/
theorem retSum_eq_zero (pre : List Call)
    (hnn : ∀ d c r, Call.readEvents d c r ∈ pre → 0 ≤ r) (hsum : retSum pre = 0) :
    ∀ d c r, Call.readEvents d c r ∈ pre → r = 0 := by
  have hsumnn : ∀ l : List Call, (∀ d c r, Call.readEvents d c r ∈ l → 0 ≤ r) →
      0 ≤ retSum l := by
    intro l
    induction l with
    | nil => intro _; simp [retSum]
    | cons c0 l ih =>
      intro h
      have hl := ih (fun d c r hm => h d c r (List.mem_cons_of_mem _ hm))
      cases c0 with
      | readEvents d0 k0 r0 =>
        have := h d0 k0 r0 (List.mem_cons_self _ _)
        simp only [retSum]
        omega
      | poll t2 k2 nb2 => simpa [retSum] using hl
  induction pre with
  | nil =>
    intro d c r h
    simp at h
  | cons c0 pre ih =>
    intro d c r h
    have hpre := hsumnn pre (fun d c r hm => hnn d c r (List.mem_cons_of_mem _ hm))
    cases c0 with
    | readEvents d0 k0 r0 =>
      have h0 := hnn d0 k0 r0 (List.mem_cons_self _ _)
      simp only [retSum] at hsum
      rcases List.mem_cons.mp h with heq | hm
      · injection heq with _ _ e3
        omega
      · exact ih (fun d c r hm => hnn d c r (List.mem_cons_of_mem _ hm)) (by omega) d c r hm
    | poll t2 k2 nb2 =>
      simp only [retSum] at hsum
      rcases List.mem_cons.mp h with heq | hm
      · exact absurd heq (by simp)
      · exact ih (fun d c r hm => hnn d c r (List.mem_cons_of_mem _ hm)) hsum d c r hm

/-- C9. Take a call of `accelPollEvents` with `count ≥ 1` in which no
`readEvents` returns a negative value, and any `poll` it makes, with `pre`
the calls made before it. The `nbEvents` at that `poll` is the sum of what
the `readEvents` calls in `pre` returned (the samples produced so far in
this call), the remaining count is the caller's count minus that sum and is
positive, and the timeout is 0 if that sum is positive and -1 (no timeout)
if it is zero. So a `poll` without timeout is made only when every earlier
`readEvents` of this call returned 0, and once some `readEvents` has
returned a positive value every later `poll` has timeout 0. -/
theorem accelPollEvents_poll_timeout {F : Type} (P : Platform F) (sensor : AccelSensor F)
    (g : Globals) (script : List PollOutcome) (count : Int) (hcount : 1 ≤ count)
    (hret : ∀ d k r, Call.readEvents d k r ∈ (accelPollEvents P sensor g script count).calls →
      0 ≤ r) :
    ∀ (pre post : List Call) (t k nb : Int),
      (accelPollEvents P sensor g script count).calls = pre ++ Call.poll t k nb :: post →
        nb = retSum pre ∧ k = count - retSum pre ∧ 0 < k ∧ 0 ≤ nb ∧
          t = (if 0 < retSum pre then 0 else -1) ∧
          (t = -1 → ∀ d c r, Call.readEvents d c r ∈ pre → r = 0) ∧
          ((∃ d c r, Call.readEvents d c r ∈ pre ∧ 0 < r) → t = 0) := by
  intro pre post t k nb hsplit
  have hok : traceOk 0 count 0 (accelPollEvents P sensor g script count).calls :=
    pollLoop_traceOk P script _ hcount hret
  rw [hsplit] at hok
  obtain ⟨g1, g2, g3, g4, g5⟩ :=
    traceOk_poll pre 0 count 0 t k nb post hok (by omega) (le_refl 0)
  rw [zero_add] at g1
  have hpre : ∀ d c r, Call.readEvents d c r ∈ pre → 0 ≤ r := fun d c r hm =>
    hret d c r (by rw [hsplit]; exact List.mem_append_left _ hm)
  have ht : t = (if 0 < retSum pre then 0 else -1) := by
    rw [g5, g1]
    unfold pollTimeout
    by_cases hz : retSum pre = 0
    · simp [hz]
    · rw [if_pos hz, if_pos (by omega)]
  refine ⟨g1, g2, g3, by rw [g1]; exact g4, ht, ?_, ?_⟩
  · intro hneg
    have hz : retSum pre = 0 := by
      by_cases hp : 0 < retSum pre
      · rw [ht, if_pos hp] at hneg
        omega
      · omega
    exact retSum_eq_zero pre hpre hz
  · rintro ⟨d, c, r, hm, hr⟩
    have hz : retSum pre ≠ 0 := fun hz => by
      have := retSum_eq_zero pre hpre hz d c r hm
      omega
    rw [ht, if_pos (by omega)]

/-- Witness of C9 on `shortRun`: the first `poll` has no timeout; after two
reads that returned one sample each, the third `poll` is made with
`nbEvents = 2`, one slot left and timeout 0. -/
theorem accelPollEvents_poll_timeout_witness :
    shortRun.calls =
        [Call.poll (-1) 3 0, Call.readEvents 0 3 1, Call.poll 0 2 1, Call.readEvents 1 2 1,
          Call.poll 0 1 2] ∧
      shortRun.outcome = Outcome.returned 2 ∧
      ((2 : Int) = retSum [Call.poll (-1) 3 0, Call.readEvents 0 3 1, Call.poll 0 2 1,
          Call.readEvents 1 2 1] ∧
        (1 : Int) = 3 - retSum [Call.poll (-1) 3 0, Call.readEvents 0 3 1, Call.poll 0 2 1,
          Call.readEvents 1 2 1] ∧
        (0 : Int) = (if 0 < retSum [Call.poll (-1) 3 0, Call.readEvents 0 3 1, Call.poll 0 2 1,
          Call.readEvents 1 2 1] then 0 else -1)) := by
  have hcalls : (accelPollEvents intPlatform
      (freshSensor 1 [⟨16, [synEvent 4]⟩, ⟨16, [synEvent 5]⟩]) freshGlobals
      [⟨1, 0, POLLIN, 0⟩, ⟨1, 0, POLLIN, 0⟩, ⟨0, 0, 0, 0⟩] 3).calls =
      [Call.poll (-1) 3 0, Call.readEvents 0 3 1, Call.poll 0 2 1, Call.readEvents 1 2 1,
        Call.poll 0 1 2] := by decide
  have h := accelPollEvents_poll_timeout intPlatform
    (freshSensor 1 [⟨16, [synEvent 4]⟩, ⟨16, [synEvent 5]⟩]) freshGlobals
    [⟨1, 0, POLLIN, 0⟩, ⟨1, 0, POLLIN, 0⟩, ⟨0, 0, 0, 0⟩] 3 (by decide)
    (by
      intro d k r hm
      rw [hcalls] at hm
      simp at hm
      omega)
    [Call.poll (-1) 3 0, Call.readEvents 0 3 1, Call.poll 0 2 1, Call.readEvents 1 2 1] []
    0 1 2 hcalls
  exact ⟨hcalls, by decide, h.1, h.2.1, h.2.2.2.2.1⟩

/-- C8 fails on `readFailureRun`: the first `readEvents` returns -5; the
call goes on, polls with `count = 6`, calls `readEvents` again with that
count (the caller gave 1) and with the cursor at slot -5, which is where
the sample is stored; the call returns -4. -/
theorem accelPollEvents_read_failure_goes_on :
    readFailureRun.calls =
        [Call.readEvents 0 1 (-5), Call.poll 0 6 (-5), Call.readEvents (-5) 6 1,
          Call.poll 0 5 (-4)] ∧
      readFailureRun.outcome = Outcome.returned (-4) ∧
      readFailureRun.state.stores.map Prod.fst = [-5] := by
  decide

end AccelHal
